import Mathlib

/-!
Verification of `pymclevel/materials.py` (MCEdit-Unified): a shallow
embedding of the material registry (`MCMaterials` / `addBlock`), the
block-attribute resolution (`Block.__getattr__` / `blockWithID`), the
partial-name lookup (`blocksMatching`), the texture-face rotation
(`rot90cw`), and the palette-conversion engine (`guessFilterTable`,
`_filterTable`, `filterConversion`, `nullConversion`, `conversionFunc`).

Conventions of the embedding:
* Python lists indexed by block ID / data are modelled as total functions
  `Nat → _`; out-of-range indexing (which raises `IndexError` in Python)
  is modelled at the resolution layer (`resolveName` etc.) by returning
  `none` outside `id < 4096 ∧ data < 16`.
* `numpy` stores with dtype `uint8` / `uint16` wrap written values; the
  embedding applies the corresponding `% 256` / `% 65536` at each write.
* Python object identity (`is`, and dict keys on registry objects) is
  modelled by structural equality of the corresponding values.
-/

namespace MCEdit

/-! ## Texture face rotation (`addYamlBlock.rot90cw`)

The source performs `texture[:] = [texture[r] for r in rot]` with
`rot = (5, 0, 2, 3, 4, 1)` on a 6-entry face-texture sequence. -/

/-- The fixed index tuple `rot = (5, 0, 2, 3, 4, 1)` of `rot90cw`. -/
def rotVec : Fin 6 → Fin 6 := ![5, 0, 2, 3, 4, 1]

/-- `rot90cw`: face `i` of the result is face `rot[i]` of the input,
exactly as in `texture[:] = [texture[r] for r in rot]`. -/
def rot90cw (texture : Fin 6 → α) : Fin 6 → α := fun i => texture (rotVec i)

/-! ## String helpers mirroring the Python string operations used -/

/-- ASCII lower-casing of one character, as Python `str.lower` acts on the
(byte-string) block names appearing in the source. -/
def lowerChar (c : Char) : Char :=
  if 65 ≤ c.toNat ∧ c.toNat ≤ 90 then Char.ofNat (c.toNat + 32) else c

/-- Python `s.lower()` on the character list of a string. -/
def lowerStr (s : List Char) : List Char := s.map lowerChar

/-- Python `s.split(" ")`: split at every single space, keeping empty
pieces; on the empty string it yields `[""]`. -/
def splitSpace : List Char → List (List Char)
  | [] => [[]]
  | c :: cs =>
    let r := splitSpace cs
    if c = ' ' then [] :: r
    else
      match r with
      | t :: ts => (c :: t) :: ts
      | [] => [[c]]

/-- Python `a in b` on strings: `a` occurs in `b` as a contiguous
substring (the empty string occurs in everything). -/
def isSubstr (a b : List Char) : Bool :=
  b.tails.any (fun t => a.isPrefixOf t)

/-! ## Block handles

A `Block` stores only `(ID, blockData)`; its `name` and `aka` are looked
up in the owning registry on each access.  During a resolver run the
registries are static, so the resolver sees for every known block the
fixed resolved view recorded here. -/

/-- The resolved view of one known block as seen by the conversion code:
its `(ID, blockData)` identifier together with the `name` and `aka`
strings its attribute reads resolve to. -/
structure Blk where
  ID : Nat
  blockData : Nat
  name : String
  aka : String
deriving DecidableEq, Repr

/-- The comparison key of `Block.__cmp__`: the `(ID, blockData)` pair.
Two blocks compare equal iff their keys are equal, names regardless. -/
def blkKey (b : Blk) : Nat × Nat := (b.ID, b.blockData)

/-- Lexicographic order on `(ID, blockData)` keys, as Python tuple
comparison orders them in `Block.__cmp__`. -/
def keyLe (a b : Nat × Nat) : Prop :=
  a.1 < b.1 ∨ (a.1 = b.1 ∧ a.2 ≤ b.2)

instance (a b : Nat × Nat) : Decidable (keyLe a b) := by
  unfold keyLe; exact inferInstance

/-- The descending comparison used by `sorted(matsTo.allBlocks,
reverse=True)`: `a` may precede `b` iff `key b ≤ key a`. -/
def blkGE (a b : Blk) : Prop := keyLe (blkKey b) (blkKey a)

instance (a b : Blk) : Decidable (blkGE a b) := by
  unfold blkGE; exact inferInstance

theorem keyLe_refl (a : Nat × Nat) : keyLe a a := Or.inr ⟨rfl, le_refl _⟩

theorem keyLe_total (a b : Nat × Nat) : keyLe a b ∨ keyLe b a := by
  rcases Nat.lt_trichotomy a.1 b.1 with h | h | h
  · exact Or.inl (Or.inl h)
  · rcases Nat.le_total a.2 b.2 with h2 | h2
    · exact Or.inl (Or.inr ⟨h, h2⟩)
    · exact Or.inr (Or.inr ⟨h.symm, h2⟩)
  · exact Or.inr (Or.inl h)

theorem keyLe_trans {a b c : Nat × Nat} (h1 : keyLe a b) (h2 : keyLe b c) :
    keyLe a c := by
  rcases h1 with h1 | ⟨h1, h1'⟩
  · rcases h2 with h2 | ⟨h2, _⟩
    · exact Or.inl (h1.trans h2)
    · exact Or.inl (h2 ▸ h1)
  · rcases h2 with h2 | ⟨h2, h2'⟩
    · exact Or.inl (h1 ▸ h2)
    · exact Or.inr ⟨h1.trans h2, h1'.trans h2'⟩

instance : IsTotal Blk blkGE :=
  ⟨fun a b => by unfold blkGE; exact keyLe_total (blkKey b) (blkKey a)⟩

instance : IsTrans Blk blkGE :=
  ⟨fun _ _ _ h1 h2 => keyLe_trans h2 h1⟩

/-! ## The exact-name dictionary of `guessFilterTable`

`toByName = dict((b.name, b) for b in sorted(matsTo.allBlocks,
reverse=True))`: blocks are sorted in descending `(ID, blockData)` order
(Python's sort is stable) and inserted into a dict, where a later insert
for the same name overwrites an earlier one. -/

/-- Stable descending sort of blocks by their `(ID, blockData)` key,
modelling `sorted(blocks, reverse=True)` under `Block.__cmp__`. -/
def sortDesc (l : List Blk) : List Blk := l.insertionSort blkGE

/-- One dict insertion `m[b.name] = b`, overwriting any earlier entry. -/
def dictStep (m : String → Option Blk) (b : Blk) : String → Option Blk :=
  fun n => if n = b.name then some b else m n

/-- The dict built by inserting the blocks of `l` in order. -/
def dictOf (l : List Blk) : String → Option Blk :=
  l.foldl dictStep (fun _ => none)

/-- `toByName`: the exact-display-name dictionary of `guessFilterTable`. -/
def toByName (l : List Blk) : String → Option Blk := dictOf (sortDesc l)

theorem dictOf_append (l : List Blk) (x : Blk) (n : String) :
    dictOf (l ++ [x]) n = if n = x.name then some x else dictOf l n := by
  unfold dictOf
  rw [List.foldl_append]
  rfl

theorem dictOf_some_of_sorted {l : List Blk} {n : String} {b : Blk}
    (hs : l.Sorted blkGE) (h : dictOf l n = some b) :
    b ∈ l ∧ b.name = n ∧ ∀ c ∈ l, c.name = n → blkGE c b := by
  induction l using List.reverseRecOn with
  | nil => exact absurd h (by simp [dictOf])
  | append_singleton l x ih =>
    rw [List.Sorted, List.pairwise_append] at hs
    obtain ⟨hsl, -, hrel⟩ := hs
    rw [dictOf_append] at h
    by_cases hn : n = x.name
    · rw [if_pos hn] at h
      obtain rfl : x = b := by injection h
      refine ⟨by simp, hn.symm, ?_⟩
      intro c hc _
      rcases List.mem_append.mp hc with hc | hc
      · exact hrel c hc x (by simp)
      · obtain rfl : c = x := by simpa using hc
        exact keyLe_refl _
    · rw [if_neg hn] at h
      obtain ⟨hmem, hname, hmin⟩ := ih hsl h
      refine ⟨List.mem_append.mpr (Or.inl hmem), hname, ?_⟩
      intro c hc hcn
      rcases List.mem_append.mp hc with hc | hc
      · exact hmin c hc hcn
      · obtain rfl : c = x := by simpa using hc
        exact absurd (hcn ▸ rfl) (Ne.symm hn)

/-- Whenever `toByName` finds a block for a display name, that block
carries the name and its `(ID, blockData)` key is minimal among all
destination blocks carrying the same name. -/
theorem toByName_some {l : List Blk} {n : String} {b : Blk}
    (h : toByName l n = some b) :
    b ∈ l ∧ b.name = n ∧ ∀ c ∈ l, c.name = n → keyLe (blkKey b) (blkKey c) := by
  obtain ⟨hmem, hname, hmin⟩ :=
    dictOf_some_of_sorted (List.sorted_insertionSort blkGE l) h
  refine ⟨(List.perm_insertionSort blkGE l).mem_iff.mp hmem, hname, ?_⟩
  intro c hc hcn
  exact hmin c ((List.perm_insertionSort blkGE l).mem_iff.mpr hc) hcn

/-- If no destination block carries the name, `toByName` finds nothing. -/
theorem toByName_none {l : List Blk} {n : String}
    (h : ∀ b ∈ l, b.name ≠ n) : toByName l n = none := by
  cases hb : toByName l n with
  | none => rfl
  | some b =>
    obtain ⟨hmem, hname, -⟩ := toByName_some hb
    exact absurd hname (h b hmem)

/-! ## Partial-name lookup (`MCMaterials.blocksMatching`)

The loop lower-cases and whitespace-splits the query and, for each known
block, the pool `nameParts` made of its name tokens followed by its aka
tokens.  Each pool token greedily consumes the first not-yet-used query
token that is a substring of it; the block matches when the number of
consumptions equals the number of query tokens. -/

/-- The inner `while` of `blocksMatching`: the first index `j` of a query
token not yet in `used` that is a substring of the pool token `v2`. -/
def findTokenMatch (q : List (List Char)) (used : List Nat)
    (v2 : List Char) : Option Nat :=
  (List.range q.length).find?
    (fun j => isSubstr (q.getD j []) v2 && !(used.contains j))

/-- The outer `for v2 in nameParts` loop, threading the match count `i`
and the list `used` of consumed query-token indices. -/
def matchLoop (q : List (List Char)) :
    List (List Char) → Nat → List Nat → Nat
  | [], i, _ => i
  | v2 :: rest, i, used =>
    match findTokenMatch q used v2 with
    | some j => matchLoop q rest (i + 1) (used ++ [j])
    | none => matchLoop q rest i used

/-- Whether one block (given its `name` and `aka`) matches the query,
per the body of `blocksMatching`. -/
def blockMatches (name aka : String) (query : String) : Bool :=
  let q := splitSpace (lowerStr query.data)
  let nameParts := splitSpace (lowerStr name.data) ++ splitSpace (lowerStr aka.data)
  matchLoop q nameParts 0 [] = q.length

/-- `blocksMatching`: all known blocks matching the query, in
known-block order. -/
def blocksMatching (allBlocks : List Blk) (query : String) : List Blk :=
  allBlocks.filter (fun v => blockMatches v.name v.aka query)

/-! ## The correspondence resolver (`guessFilterTable`)

For each source block the five rules are tried in order; a match that is
not `(ID, blockData)`-equal to the source block is appended to `filters`,
an unresolved block's key is appended to `unavailable`. -/

/-- The per-source-block rule chain of `guessFilterTable`:
1. exact display-name match via the `toByName` dict;
2. first destination block whose name starts with the source name;
3. first destination block whose name contains the source name;
4. first destination block whose aka contains the source name;
5. the two fixed legacy-wool special cases mapping onto "Purple Wool". -/
def resolveBlock (matsTo : List Blk) (fromBlock : Blk) : Option Blk :=
  match toByName matsTo fromBlock.name with
  | some b => some b
  | none =>
    match matsTo.find? (fun b => fromBlock.name.data.isPrefixOf b.name.data) with
    | some b => some b
    | none =>
      match matsTo.find? (fun b => isSubstr fromBlock.name.data b.name.data) with
      | some b => some b
      | none =>
        match matsTo.find? (fun b => isSubstr fromBlock.name.data b.aka.data) with
        | some b => some b
        | none =>
          if fromBlock.name = "Indigo Wool" then toByName matsTo "Purple Wool"
          else if fromBlock.name = "Violet Wool" then toByName matsTo "Purple Wool"
          else none

/-- One iteration of the `for fromBlock in matsFrom.allBlocks` loop:
record a filter entry when a differing match is found (`block !=
fromBlock` compares `(ID, blockData)` keys only), an unavailable entry
when no rule matched. -/
def gftStep (matsTo : List Blk)
    (acc : List ((Nat × Nat) × (Nat × Nat)) × List (Nat × Nat))
    (fromBlock : Blk) :
    List ((Nat × Nat) × (Nat × Nat)) × List (Nat × Nat) :=
  match resolveBlock matsTo fromBlock with
  | some block =>
    if blkKey block ≠ blkKey fromBlock then
      (acc.1 ++ [(blkKey fromBlock, blkKey block)], acc.2)
    else acc
  | none => (acc.1, acc.2 ++ [blkKey fromBlock])

/-- `guessFilterTable(matsFrom, matsTo)`: the `(filters, unavailable)`
pair produced by running the rule chain over the source blocks. -/
def guessFilterTable (matsFrom matsTo : List Blk) :
    List ((Nat × Nat) × (Nat × Nat)) × List (Nat × Nat) :=
  matsFrom.foldl (gftStep matsTo) ([], [])

theorem gft_filters_mono (matsTo : List Blk) (l : List Blk)
    (acc : List ((Nat × Nat) × (Nat × Nat)) × List (Nat × Nat))
    (x : (Nat × Nat) × (Nat × Nat)) (hx : x ∈ acc.1) :
    x ∈ (l.foldl (gftStep matsTo) acc).1 := by
  induction l generalizing acc with
  | nil => exact hx
  | cons y t ih =>
    refine ih (gftStep matsTo acc y) ?_
    unfold gftStep
    cases resolveBlock matsTo y with
    | none => exact hx
    | some b =>
      by_cases hb : blkKey b ≠ blkKey y
      · simp only [if_pos hb]
        exact List.mem_append_left _ hx
      · simpa [hb] using hx

theorem gft_filters_of_mem (matsTo : List Blk) (l : List Blk)
    (acc : List ((Nat × Nat) × (Nat × Nat)) × List (Nat × Nat))
    (fromBlock block : Blk) (hmem : fromBlock ∈ l)
    (hres : resolveBlock matsTo fromBlock = some block)
    (hne : blkKey block ≠ blkKey fromBlock) :
    (blkKey fromBlock, blkKey block) ∈ (l.foldl (gftStep matsTo) acc).1 := by
  induction l generalizing acc with
  | nil => cases hmem
  | cons y t ih =>
    rcases List.mem_cons.mp hmem with rfl | hmem
    · refine gft_filters_mono matsTo t _ _ ?_
      simp only [gftStep, hres, if_pos hne]
      exact List.mem_append_right _ (List.mem_singleton.mpr rfl)
    · exact ih _ hmem

theorem gft_unavailable_spec (matsTo : List Blk) (l : List Blk)
    (acc : List ((Nat × Nat) × (Nat × Nat)) × List (Nat × Nat))
    (x : Nat × Nat) (hx : x ∈ (l.foldl (gftStep matsTo) acc).2) :
    x ∈ acc.2 ∨ ∃ b, b ∈ l ∧ blkKey b = x ∧ resolveBlock matsTo b = none := by
  induction l generalizing acc with
  | nil => exact Or.inl hx
  | cons y t ih =>
    rcases ih (gftStep matsTo acc y) hx with hacc | ⟨b, hb, hbk, hbres⟩
    · cases hr : resolveBlock matsTo y with
      | none =>
        simp only [gftStep, hr] at hacc
        rcases List.mem_append.mp hacc with h | h
        · exact Or.inl h
        · exact Or.inr ⟨y, List.mem_cons_self y t, (List.mem_singleton.mp h).symm, hr⟩
      | some b =>
        simp only [gftStep, hr] at hacc
        by_cases hb : blkKey b ≠ blkKey y
        · rw [if_pos hb] at hacc
          exact Or.inl hacc
        · rw [if_neg hb] at hacc
          exact Or.inl hacc
    · exact Or.inr ⟨b, List.mem_cons_of_mem _ hb, hbk, hbres⟩

/-! ## The conversion table (`_filterTable`, `filterConversion`)

`_filterTable` allocates `zeros((id_limit, 16, 2), dtype='uint8')` and
fills it with the identity indices, so every value written into a cell —
including the identity baseline itself — is wrapped modulo 256 by the
`uint8` store.  An entry whose data component is 0 addresses the whole
16-variant row of its ID; otherwise it addresses one cell. -/

/-- One `table[u] = default` overwrite of the unavailable loop. -/
def unavailStep (default : Nat × Nat) (t : Nat → Nat → Nat × Nat)
    (u : Nat × Nat) : Nat → Nat → Nat × Nat :=
  if u.2 = 0 then
    fun b d => if b = u.1 then (default.1 % 256, default.2 % 256) else t b d
  else
    fun b d => if b = u.1 ∧ d = u.2 then (default.1 % 256, default.2 % 256) else t b d

/-- One `table[f] = t` overwrite of the filter loop. -/
def filterStep (t : Nat → Nat → Nat × Nat)
    (ft : (Nat × Nat) × (Nat × Nat)) : Nat → Nat → Nat × Nat :=
  if ft.1.2 = 0 then
    fun b d => if b = ft.1.1 then (ft.2.1 % 256, ft.2.2 % 256) else t b d
  else
    fun b d => if b = ft.1.1 ∧ d = ft.1.2 then (ft.2.1 % 256, ft.2.2 % 256) else t b d

/-- `_filterTable(filters, unavailable, default)`: the identity baseline
(wrapped by the `uint8` store), then the unavailable overwrites, then the
filter overwrites. -/
def filterTable (filters : List ((Nat × Nat) × (Nat × Nat)))
    (unavailable : List (Nat × Nat)) (default : Nat × Nat) :
    Nat → Nat → Nat × Nat :=
  let t0 : Nat → Nat → Nat × Nat := fun b d => (b % 256, d % 256)
  let t1 := unavailable.foldl (unavailStep default) t0
  filters.foldl filterStep t1

/-- `nullConversion = lambda b, d: (b, d)`. -/
def nullConversion : Nat → Nat → Nat × Nat := fun b d => (b, d)

/-- `filterConversion(table)`: the conversion function reading the table
cell of its argument pair (`convert` of the source; the `data is None`
branch never applies here since a data value is always supplied). -/
def filterConversion (table : Nat → Nat → Nat × Nat) :
    Nat → Nat → Nat × Nat :=
  fun blocks data => table blocks data

/-! ## The conversion cache (`_conversionFuncs`, `conversionFunc`)

The process-wide cache maps an ordered `(destination, source)` registry
pair to its built conversion function.  Registries enter the conversion
layer through their resolved known-block views (`List Blk`); Python
object identity of two registries is modelled as equality of those
views.  The third component of the result records whether this call ran
the correspondence resolver and built a table (`True` exactly on a cache
miss with distinct registries). -/

/-- The `_conversionFuncs` cache. -/
abbrev Cache : Type :=
  List ((List Blk × List Blk) × (Nat → Nat → Nat × Nat))

/-- `conversionFunc(destMats, sourceMats)`: identity short-circuit for
the same registry, then cache lookup, then resolver run + table build. -/
def conversionFunc (destMats sourceMats : List Blk) (cache : Cache) :
    (Nat → Nat → Nat × Nat) × Cache × Bool :=
  if destMats = sourceMats then (nullConversion, cache, false)
  else
    match cache.find? (fun e => decide (e.1 = (destMats, sourceMats))) with
    | some e => (e.2, cache, false)
    | none =>
      let fu := guessFilterTable sourceMats destMats
      let table := filterTable fu.1 fu.2 (35, 0)
      let func := filterConversion table
      (func, cache ++ [((destMats, sourceMats), func)], true)

/-! ## The registry (`MCMaterials`, `addBlock`)

The parallel attribute tables of `MCMaterials.__init__`.  `self.type` is
created as `[["NORMAL"] * 16] * id_limit`: one shared inner list
referenced by all 4096 rows.  The embedding makes that reference
structure explicit: `typeRowOf` maps each primary ID to a row handle and
`typeHeap` stores the row contents, so an in-place write through one ID
is visible through every ID still holding the same handle, exactly as in
the Python list-of-references.  `names` and `aka` are built with a list
comprehension (independent rows), so they are plain per-ID tables. -/

/-- Pointwise update of a one-argument table. -/
def upd (f : Nat → α) (i : Nat) (v : α) : Nat → α :=
  fun j => if j = i then v else f j

/-- The mutable registry state: the parallel tables of `MCMaterials`
plus the known-block sequence (`allBlocks` stores the `(ID, blockData)`
handles; a `Block` resolves its attributes against these tables). -/
structure MCMaterials where
  names : Nat → Nat → String
  aka : Nat → Nat → String
  typeRowOf : Nat → Nat
  typeHeap : Nat → Nat → String
  nextRow : Nat
  lightEmission : Nat → Nat
  lightAbsorption : Nat → Nat
  flatColors : Nat → Nat → Nat × Nat × Nat × Nat
  blockTextures : Nat → Nat → Fin 6 → Nat × Nat
  allBlocks : List (Nat × Nat)

/-- The keyword-argument bundle accepted by `addBlock`: every field the
call may supply; `none` models an absent keyword. -/
structure BlockKW where
  name : Option String := none
  brightness : Option Nat := none
  opacity : Option Nat := none
  aka : Option String := none
  type : Option String := none
  mapcolor : Option (Nat × Nat × Nat) := none
  texture : Option (Fin 6 → Nat × Nat) := none

/-- `addBlock(blockID, blockData, **kw)`.  Field by field, following the
source: an absent `name` defaults to the currently stored name of the
targeted slot; absent `brightness` / `opacity` / `aka` / `type` default
to `0` / `15` / `""` / `"NORMAL"`; an absent `mapcolor` keeps the
currently stored color of the targeted slot; an absent `texture` writes
nothing.  A `blockData` of 0 fans the written name, type, color and
texture across all 16 variant slots (`blockData or slice(None)` /
`blockData is 0`), and in particular replaces the type row with a fresh
list, while a nonzero `blockData` writes the type tag in place into the
row the primary ID currently references.  `uint8` stores wrap mod 256,
the `uint16` texture store wraps mod 65536. -/
def addBlock (m : MCMaterials) (blockID blockData : Nat) (kw : BlockKW) :
    MCMaterials :=
  let name := kw.name.getD (m.names blockID blockData)
  let ty := kw.type.getD "NORMAL"
  let color := match kw.mapcolor with
    | some (r, g, b) => (r % 256, g % 256, b % 256, 255)
    | none => m.flatColors blockID blockData
  { names :=
      if blockData = 0 then
        fun i d => if i = blockID then name else m.names i d
      else
        fun i d => if i = blockID ∧ d = blockData then name else m.names i d
    aka := fun i d =>
      if i = blockID ∧ d = blockData then kw.aka.getD "" else m.aka i d
    typeRowOf :=
      if blockData = 0 then upd m.typeRowOf blockID m.nextRow else m.typeRowOf
    typeHeap :=
      if blockData = 0 then
        upd m.typeHeap m.nextRow (fun _ => ty)
      else
        fun r d =>
          if r = m.typeRowOf blockID ∧ d = blockData then ty else m.typeHeap r d
    nextRow := if blockData = 0 then m.nextRow + 1 else m.nextRow
    lightEmission := upd m.lightEmission blockID (kw.brightness.getD 0 % 256)
    lightAbsorption := upd m.lightAbsorption blockID (kw.opacity.getD 15 % 256)
    flatColors :=
      if blockData = 0 then
        fun i d => if i = blockID then color else m.flatColors i d
      else
        fun i d => if i = blockID ∧ d = blockData then color else m.flatColors i d
    blockTextures :=
      match kw.texture with
      | some tex =>
        let tex' := fun j => ((tex j).1 % 65536, (tex j).2 % 65536)
        if blockData = 0 then
          fun i d => if i = blockID then tex' else m.blockTextures i d
        else
          fun i d => if i = blockID ∧ d = blockData then tex' else m.blockTextures i d
      | none => m.blockTextures
    allBlocks := m.allBlocks ++ [(blockID, blockData)] }

/-- The table state right after the `__init__` assignments, before the
built-in `addBlock(0, name="Air", ...)` call: every attribute holds its
default and all 4096 type rows reference the single shared row 0. -/
def initMaterialsRaw (defaultName : String) : MCMaterials where
  names := fun _ _ => defaultName
  aka := fun _ _ => ""
  typeRowOf := fun _ => 0
  typeHeap := fun _ _ => "NORMAL"
  nextRow := 1
  lightEmission := fun _ => 0
  lightAbsorption := fun _ => 15
  flatColors := fun _ _ => (0xc9, 0x77, 0xf0, 0xff)
  blockTextures := fun _ _ _ => (0x1F0, 0x1F0)
  allBlocks := []

/-- A freshly constructed registry: `MCMaterials.__init__` ends by
defining Air at `(0, 0)` with `texture=(0x0, 0x150)` (broadcast to all
six faces) and `opacity=0`. -/
def initMaterials (defaultName : String) : MCMaterials :=
  addBlock (initMaterialsRaw defaultName) 0 0
    { name := some "Air", opacity := some 0,
      texture := some (fun _ => (0x0, 0x150)) }

/-! ## Attribute resolution (`blockWithID` + `Block.__getattr__`)

`blockWithID` always returns a handle; an attribute read then indexes
the registry tables, which raises (`IndexError`, modelled as `none`)
exactly when the identifier is outside `[0, 4096) × [0, 16)`.  `name`,
`aka`, `type` and `color` are variant-specific reads; `brightness` and
`opacity` are primary-ID reads. -/

/-- Resolved display name of the identifier. -/
def resolveName (m : MCMaterials) (id data : Nat) : Option String :=
  if id < 4096 ∧ data < 16 then some (m.names id data) else none

/-- Resolved alias text of the identifier. -/
def resolveAka (m : MCMaterials) (id data : Nat) : Option String :=
  if id < 4096 ∧ data < 16 then some (m.aka id data) else none

/-- Resolved category tag of the identifier: the cell of the type row
currently referenced by the primary ID. -/
def resolveType (m : MCMaterials) (id data : Nat) : Option String :=
  if id < 4096 ∧ data < 16 then some (m.typeHeap (m.typeRowOf id) data) else none

/-- Resolved light emission (per primary ID). -/
def resolveBrightness (m : MCMaterials) (id : Nat) : Option Nat :=
  if id < 4096 then some (m.lightEmission id) else none

/-- Resolved light absorption (per primary ID). -/
def resolveOpacity (m : MCMaterials) (id : Nat) : Option Nat :=
  if id < 4096 then some (m.lightAbsorption id) else none

/-- Resolved color of the identifier. -/
def resolveColor (m : MCMaterials) (id data : Nat) :
    Option (Nat × Nat × Nat × Nat) :=
  if id < 4096 ∧ data < 16 then some (m.flatColors id data) else none

/-! ## Claim C1 -/

/-- C1: building a conversion table with no filters and no unavailable
entries is claimed to be the identity on every identifier with
`primaryID ∈ [0, 4096)`.  The code stores the table in `uint8` cells, so
the identity baseline itself is truncated mod 256: the built table maps
`(256, 0)` to `(0, 0)`, not to itself. -/
theorem C1_empty_table_truncates_at_256 :
    filterConversion (filterTable [] [] (35, 0)) 256 0 = (0, 0) ∧
    ((0 : Nat), (0 : Nat)) ≠ (256, 0) :=
  ⟨rfl, by decide⟩

/-! ## Claim C2 -/

/-- C2: the face rotation is claimed to fix "top" and "bottom" (faces 2
and 3), cycle the four lateral faces, and satisfy `rot⁴ = id`.  The
actual tuple `rot = (5, 0, 2, 3, 4, 1)` is a 3-cycle on faces 0, 1, 5
that also fixes the lateral face 4, so four applications equal one
application: on the six distinct face values 10..15 the fourth iterate
is `[15, 10, 12, 13, 14, 11]`, not the original sequence, while face 4
is left untouched by a single rotation. -/
theorem C2_rot90cw_fourth_power_not_identity :
    rot90cw (rot90cw (rot90cw (rot90cw (![10, 11, 12, 13, 14, 15] : Fin 6 → Nat)))) =
      ![15, 10, 12, 13, 14, 11] ∧
    rot90cw (rot90cw (rot90cw (rot90cw (![10, 11, 12, 13, 14, 15] : Fin 6 → Nat)))) ≠
      ![10, 11, 12, 13, 14, 15] ∧
    rot90cw (![10, 11, 12, 13, 14, 15] : Fin 6 → Nat) 4 = 14 := by
  refine ⟨?_, fun h => absurd (congrFun h 0) (by decide), rfl⟩
  funext i; fin_cases i <;> rfl

/-! ## Claim C3 -/

/-- C3 counterexample: `defineBlock` with an attribute bundle omitting
`lightEmission` does not leave the stored emission at its current value.
After storing emission 9 for primary ID 5, a second call with an empty
bundle resets it to the default 0. -/
theorem C3_counterexample_brightness_reset :
    (addBlock (initMaterials "Unused Block") 5 0
      { brightness := some 9 }).lightEmission 5 = 9 ∧
    (addBlock (addBlock (initMaterials "Unused Block") 5 0
      { brightness := some 9 }) 5 0 {}).lightEmission 5 = 0 :=
  ⟨rfl, rfl⟩

/-- C3 amended: in an `addBlock` call, an omitted `name` leaves the
display name of the targeted slot at its current value, and an omitted
`mapcolor` / `texture` leaves the color / texture of the targeted slot
unchanged; but an omitted `brightness`, `opacity`, `aka` or `type` is
reset to its default (0, 15, `""`, `"NORMAL"`) rather than left at the
current value. -/
theorem C3_addBlock_partial_bundle (m : MCMaterials) (id d : Nat) (kw : BlockKW) :
    (kw.name = none → (addBlock m id d kw).names id d = m.names id d) ∧
    (kw.brightness = none → (addBlock m id d kw).lightEmission id = 0) ∧
    (kw.opacity = none → (addBlock m id d kw).lightAbsorption id = 15) ∧
    (kw.aka = none → (addBlock m id d kw).aka id d = "") ∧
    (kw.type = none →
      (addBlock m id d kw).typeHeap ((addBlock m id d kw).typeRowOf id) d = "NORMAL") ∧
    (kw.mapcolor = none → (addBlock m id d kw).flatColors id d = m.flatColors id d) ∧
    (kw.texture = none → (addBlock m id d kw).blockTextures id d = m.blockTextures id d) := by
  refine ⟨fun h => ?_, fun h => ?_, fun h => ?_, fun h => ?_, fun h => ?_,
    fun h => ?_, fun h => ?_⟩
  · by_cases hd : d = 0 <;> simp [addBlock, h, hd]
  · simp [addBlock, h, upd]
  · simp [addBlock, h, upd]
  · simp [addBlock, h]
  · by_cases hd : d = 0 <;> simp [addBlock, h, hd, upd]
  · by_cases hd : d = 0 <;> simp [addBlock, h, hd]
  · simp [addBlock, h]

/-- C3 witness: the amended statement instantiated on a concrete
registry, identifier and empty attribute bundle. -/
theorem C3_witness :
    (addBlock (initMaterials "Unused Block") 5 0 {}).names 5 0 =
      (initMaterials "Unused Block").names 5 0 ∧
    (addBlock (initMaterials "Unused Block") 5 0 {}).lightEmission 5 = 0 ∧
    (addBlock (initMaterials "Unused Block") 5 0 {}).lightAbsorption 5 = 15 ∧
    (addBlock (initMaterials "Unused Block") 5 0 {}).aka 5 0 = "" ∧
    (addBlock (initMaterials "Unused Block") 5 0 {}).typeHeap
      ((addBlock (initMaterials "Unused Block") 5 0 {}).typeRowOf 5) 0 = "NORMAL" := by
  obtain ⟨h1, h2, h3, h4, h5, -, -⟩ :=
    C3_addBlock_partial_bundle (initMaterials "Unused Block") 5 0 {}
  exact ⟨h1 rfl, h2 rfl, h3 rfl, h4 rfl, h5 rfl⟩

/-! ## Claim C4 -/

/-- C4 counterexample: with destination blocks defined in the order
`(5,0,"A")`, `(7,0,"A")`, the claim predicts the later-defined `(7,0)`
wins the exact-name tie for a source block named "A"; the resolver in
fact records the filter entry `((9,0),(5,0))` and never `((9,0),(7,0))`. -/
theorem C4_counterexample_later_defined_loses :
    guessFilterTable [⟨9, 0, "A", ""⟩] [⟨5, 0, "A", ""⟩, ⟨7, 0, "A", ""⟩] =
      ([((9, 0), (5, 0))], []) ∧
    ((9, 0), (7, 0)) ∉
      (guessFilterTable [⟨9, 0, "A", ""⟩] [⟨5, 0, "A", ""⟩, ⟨7, 0, "A", ""⟩]).1 := by
  decide

/-- C4 amended: when two or more destination blocks share the matched
display name, the exact-name rule does not pick the later-defined block;
it picks a block whose `(ID, blockData)` key is minimal among all
destination blocks with that name (the dict is built over the blocks
sorted in descending key order, and a later insertion overwrites an
earlier one). -/
theorem C4_exact_name_tie_minimal_key (dst : List Blk) (fromBlock b : Blk)
    (h : toByName dst fromBlock.name = some b) :
    resolveBlock dst fromBlock = some b ∧
    b ∈ dst ∧ b.name = fromBlock.name ∧
    ∀ c ∈ dst, c.name = fromBlock.name → keyLe (blkKey b) (blkKey c) := by
  obtain ⟨hmem, hname, hmin⟩ := toByName_some h
  refine ⟨?_, hmem, hname, hmin⟩
  unfold resolveBlock
  rw [h]

/-- C4 witness: the amended statement instantiated on the duplicate-name
destination list of the counterexample. -/
theorem C4_witness :
    resolveBlock [⟨5, 0, "A", ""⟩, ⟨7, 0, "A", ""⟩] ⟨9, 0, "A", ""⟩ =
      some ⟨5, 0, "A", ""⟩ ∧
    (⟨5, 0, "A", ""⟩ : Blk) ∈ [⟨5, 0, "A", ""⟩, ⟨7, 0, "A", ""⟩] ∧
    (⟨5, 0, "A", ""⟩ : Blk).name = (⟨9, 0, "A", ""⟩ : Blk).name ∧
    ∀ c ∈ [⟨5, 0, "A", ""⟩, ⟨7, 0, "A", ""⟩],
      c.name = (⟨9, 0, "A", ""⟩ : Blk).name →
      keyLe (blkKey ⟨5, 0, "A", ""⟩) (blkKey c) :=
  C4_exact_name_tie_minimal_key [⟨5, 0, "A", ""⟩, ⟨7, 0, "A", ""⟩]
    ⟨9, 0, "A", ""⟩ ⟨5, 0, "A", ""⟩ (by decide)

/-! ## Claim C5 -/

/-- C5: `defineBlock(id, 0, {name:"X"})` followed by
`defineBlock(id, 3, {name:"Y"})` resolves variant 3 to "Y" and every
other variant 0,1,2,4..15 to "X": the variant-0 write fans out across
all 16 slots and the later variant-specific write overrides slot 3. -/
theorem C5_fanout_then_override (m : MCMaterials) (id : Nat) (X Y : String)
    (hid : id < 4096) :
    resolveName (addBlock (addBlock m id 0 { name := some X }) id 3
      { name := some Y }) id 3 = some Y ∧
    ∀ d, d < 16 → d ≠ 3 →
      resolveName (addBlock (addBlock m id 0 { name := some X }) id 3
        { name := some Y }) id d = some X := by
  constructor
  · simp [resolveName, addBlock, hid]
  · intro d hd hne
    simp [resolveName, addBlock, hid, hd, hne]

/-- C5 witness: the fan-out/override behaviour on a concrete registry at
primary ID 20. -/
theorem C5_witness :
    resolveName (addBlock (addBlock (initMaterials "Unused Block") 20 0
      { name := some "X" }) 20 3 { name := some "Y" }) 20 3 = some "Y" ∧
    ∀ d, d < 16 → d ≠ 3 →
      resolveName (addBlock (addBlock (initMaterials "Unused Block") 20 0
        { name := some "X" }) 20 3 { name := some "Y" }) 20 d = some "X" :=
  C5_fanout_then_override (initMaterials "Unused Block") 20 "X" "Y" (by decide)

/-! ## Claim C6 -/

/-- C6: requesting a conversion function with the same registry as both
destination and source returns `nullConversion`, the identity on every
`(primaryID, variantID)` pair, leaves the cache untouched, and the
run-flag is `false`: the correspondence resolver is not run and no table
is built (the flag is set exactly by the branch that runs
`guessFilterTable` and `_filterTable`). -/
theorem C6_same_registry_identity (R : List Blk) (cache : Cache) :
    conversionFunc R R cache = (nullConversion, cache, false) ∧
    ∀ b d, (conversionFunc R R cache).1 b d = (b, d) := by
  constructor
  · simp [conversionFunc]
  · intro b d
    simp [conversionFunc, nullConversion]

/-! ## Claim C7 -/

/-- C7: the claim says an in-range identifier never targeted by any
`defineBlock` call resolves to the registry defaults, in particular to
the "NORMAL" category.  But all type rows of primary IDs ≥ 1 alias one
shared list, so after `defineBlock(7, 3, {category:"WATER"})` on a fresh
registry the never-targeted identifier `(8, 3)` resolves its category to
"WATER", not "NORMAL". -/
theorem C7_untouched_identifier_not_default :
    resolveType (addBlock (initMaterials "Unused Block") 7 3
      { type := some "WATER" }) 8 3 = some "WATER" ∧
    resolveType (addBlock (initMaterials "Unused Block") 7 3
      { type := some "WATER" }) 8 3 ≠ some "NORMAL" :=
  ⟨rfl, by decide⟩

/-! ## Claim C8 -/

/-- The Classic block "Lapis Lazuli Block" with empty alias text. -/
def lapisBlock : Blk := ⟨22, 0, "Lapis Lazuli Block", ""⟩

/-- C8: a known block named "Lapis Lazuli Block" with empty alias is
returned by partial-name lookup for "lapis block" and for "Block Lapis"
(query-token order does not matter), but not for "lapis block extra"
(each query token must be consumed by a distinct block token). -/
theorem C8_lapis_partial_name_lookup (bs : List Blk) (h : lapisBlock ∈ bs) :
    lapisBlock ∈ blocksMatching bs "lapis block" ∧
    lapisBlock ∈ blocksMatching bs "Block Lapis" ∧
    lapisBlock ∉ blocksMatching bs "lapis block extra" := by
  refine ⟨List.mem_filter.mpr ⟨h, by decide⟩,
    List.mem_filter.mpr ⟨h, by decide⟩, fun hc => ?_⟩
  have hp := (List.mem_filter.mp hc).2
  exact absurd hp (by decide)

/-- C8 witness: the lookup behaviour on a registry whose known blocks
are exactly `[lapisBlock]`. -/
theorem C8_witness :
    lapisBlock ∈ blocksMatching [lapisBlock] "lapis block" ∧
    lapisBlock ∈ blocksMatching [lapisBlock] "Block Lapis" ∧
    lapisBlock ∉ blocksMatching [lapisBlock] "lapis block extra" :=
  C8_lapis_partial_name_lookup [lapisBlock] (List.mem_singleton.mpr rfl)

/-! ## Claim C9 -/

/-- C9: when a source block is named "Violet Wool", the destination has
no block of that name, rules 2-4 (prefix, name-substring, alias-substring)
find no match, and the destination's exact-name dict resolves
"Purple Wool", the special-case rule records a filter entry mapping the
Violet Wool identifier to the Purple Wool identifier, and the Violet
Wool identifier is not recorded as unavailable. -/
theorem C9_violet_wool_special_case (src dst : List Blk) (violet purple : Blk)
    (hv : violet ∈ src)
    (hname : violet.name = "Violet Wool")
    (h1 : ∀ b ∈ dst, b.name ≠ "Violet Wool")
    (h2 : ∀ b ∈ dst, "Violet Wool".data.isPrefixOf b.name.data = false)
    (h3 : ∀ b ∈ dst, isSubstr "Violet Wool".data b.name.data = false)
    (h4 : ∀ b ∈ dst, isSubstr "Violet Wool".data b.aka.data = false)
    (h5 : toByName dst "Purple Wool" = some purple)
    (h6 : blkKey purple ≠ blkKey violet)
    (h7 : ∀ b ∈ src, blkKey b = blkKey violet → b.name = "Violet Wool") :
    (blkKey violet, blkKey purple) ∈ (guessFilterTable src dst).1 ∧
    blkKey violet ∉ (guessFilterTable src dst).2 := by
  have hres : ∀ b' : Blk, b'.name = "Violet Wool" →
      resolveBlock dst b' = some purple := by
    intro b' hb'
    unfold resolveBlock
    rw [hb']
    rw [toByName_none h1]
    rw [List.find?_eq_none.mpr (fun x hx => by simp [h2 x hx])]
    rw [List.find?_eq_none.mpr (fun x hx => by simp [h3 x hx])]
    rw [List.find?_eq_none.mpr (fun x hx => by simp [h4 x hx])]
    rw [if_neg (by decide), if_pos rfl, h5]
  constructor
  · exact gft_filters_of_mem dst src ([], []) violet purple hv
      (hres violet hname) h6
  · intro hmem
    rcases gft_unavailable_spec dst src ([], []) (blkKey violet) hmem with
      h | ⟨b, hb, hbk, hbres⟩
    · simp at h
    · rw [hres b (h7 b hb hbk)] at hbres
      cases hbres

/-- C9 witness: the Classic "Violet Wool" `(31, 0)` against a
destination whose only block is "Purple Wool" `(35, 10)`. -/
theorem C9_witness :
    (blkKey ⟨31, 0, "Violet Wool", ""⟩, blkKey ⟨35, 10, "Purple Wool", ""⟩) ∈
      (guessFilterTable [⟨31, 0, "Violet Wool", ""⟩]
        [⟨35, 10, "Purple Wool", ""⟩]).1 ∧
    blkKey ⟨31, 0, "Violet Wool", ""⟩ ∉
      (guessFilterTable [⟨31, 0, "Violet Wool", ""⟩]
        [⟨35, 10, "Purple Wool", ""⟩]).2 :=
  C9_violet_wool_special_case [⟨31, 0, "Violet Wool", ""⟩]
    [⟨35, 10, "Purple Wool", ""⟩] ⟨31, 0, "Violet Wool", ""⟩
    ⟨35, 10, "Purple Wool", ""⟩ (List.mem_singleton.mpr rfl) rfl
    (by decide) (by decide) (by decide) (by decide) (by decide) (by decide)
    (by decide)

/-! ## Claim C10 -/

/-- C10 counterexample: not all 4096 per-primary-ID category rows of a
freshly constructed registry alias one shared list — the constructor's
built-in Air definition at `(0, 0)` re-points primary ID 0 to a fresh
row.  A write through primary ID 7 at variant 3 is visible at primary
ID 8 but not at primary ID 0, which the claimed all-4096 aliasing would
force. -/
theorem C10_counterexample_row_zero_not_shared :
    resolveType (addBlock (initMaterials "Unused Block") 7 3
      { type := some "WATER" }) 8 3 = some "WATER" ∧
    resolveType (addBlock (initMaterials "Unused Block") 7 3
      { type := some "WATER" }) 0 3 = some "NORMAL" :=
  ⟨rfl, rfl⟩

/-- C10 amended: in a freshly constructed registry all per-primary-ID
category rows except primary ID 0's (re-pointed by the constructor's
built-in Air definition at variant 0) alias one shared default list;
consequently a `defineBlock` with nonzero variant ID on any nonzero
primary ID that never received a variant-0 definition writes the
category tag into the shared row, changing the stored category of that
variant slot for every other nonzero primary ID still holding the
shared row. -/
theorem C10_shared_category_row (dn : String) (id1 id2 d : Nat) (t : String)
    (h1 : id1 ≠ 0) (h2 : id2 ≠ 0) (hd0 : d ≠ 0)
    (hi2 : id2 < 4096) (hd : d < 16) :
    (initMaterials dn).typeRowOf id1 = (initMaterials dn).typeRowOf id2 ∧
    resolveType (addBlock (initMaterials dn) id1 d { type := some t })
      id2 d = some t := by
  constructor
  · simp [initMaterials, initMaterialsRaw, addBlock, upd, h1, h2]
  · simp [initMaterials, initMaterialsRaw, addBlock, upd, resolveType,
      h1, h2, hd0, hi2, hd]

/-- C10 witness: the shared-row effect from primary ID 7 to primary ID 8
at variant 3. -/
theorem C10_witness :
    (initMaterials "Unused Block").typeRowOf 7 =
      (initMaterials "Unused Block").typeRowOf 8 ∧
    resolveType (addBlock (initMaterials "Unused Block") 7 3
      { type := some "WATER" }) 8 3 = some "WATER" :=
  C10_shared_category_row "Unused Block" 7 8 3 "WATER" (by decide) (by decide)
    (by decide) (by decide) (by decide)

end MCEdit
